import Mathlib

/-!
# ATmega16 ADC sampler (`src/main.c`): shallow embedding

The sketch is a foreground `loop()` plus the conversion-complete handler
`ISR(ADC_vect)`, communicating through the globals `analogBuffer`,
`bufferIndex`, `samplingActive`, `samplingPaused`, `adcPrescaler` and
`settings`, the ADC registers `ADCSRA` / `ADMUX`, and the serial transport.

Modelling conventions.

* `byte` values are natural numbers; the wrap-around of a `byte` is written
  out as `% 256` wherever the C code can overflow (`bufferIndex++`, the
  `(byte)` casts of a `float`, `byte x = Serial.read()`).
* The transport is a pair of byte lists: `serialOut` collects every byte handed
  to `Serial.write` / `Serial.println` in issue order, `serialIn` is the
  receive queue read by `Serial.available` / `Serial.read`.
* A foreground busy-wait that can never finish on the modelled input (an empty
  receive queue, a latch that never reaches the level) yields `none`.
* `float` is IEEE-754 binary32.  A non-negative binary32 value `v` is stored
  as the natural number `v * 2^20`; every value the program computes (table
  entries, small integers, their differences, integer multiples of those) is a
  multiple of `2^-20`, and each operation rounds its exact result to 24
  significant bits, ties to even.
-/

namespace AdcTest

/-! ## Peripheral register bit positions -/

/-- Modelled from the spec: the bit positions of the converter registers are
not part of the repository (they come from the device header pulled in by
`Arduino.h`); the spec only names the bits.  The numbers are the ATmega16
layout: `ADCSRA = ADEN ADSC ADATE ADIF ADIE ADPS2 ADPS1 ADPS0`. -/
def ADEN : Nat := 7

/-- Modelled from the spec: start-conversion bit of `ADCSRA` (see `ADEN`). -/
def ADSC : Nat := 6

/-- Modelled from the spec: auto-trigger enable bit of `ADCSRA` (see `ADEN`). -/
def ADATE : Nat := 5

/-- Modelled from the spec: completion-interrupt enable bit of `ADCSRA`
(see `ADEN`). -/
def ADIE : Nat := 3

/-- Modelled from the spec: divider-select bit 2 of `ADCSRA` (see `ADEN`). -/
def ADPS2 : Nat := 2

/-- Modelled from the spec: divider-select bit 1 of `ADCSRA` (see `ADEN`). -/
def ADPS1 : Nat := 1

/-- Modelled from the spec: divider-select bit 0 of `ADCSRA` (see `ADEN`). -/
def ADPS0 : Nat := 0

/-- Modelled from the spec: reference-select bit 1 of `ADMUX`; the ATmega16
layout is `ADMUX = REFS1 REFS0 ADLAR MUX4 .. MUX0`. -/
def REFS1 : Nat := 7

/-- Modelled from the spec: reference-select bit 0 of `ADMUX` (see `REFS1`). -/
def REFS0 : Nat := 6

/-! ## Globals -/

/-- The record `struct SamplingSettings`. -/
structure SamplingSettings where
  prescalerIndex : Nat
  inputChannel : Nat
  useVref : Bool
  triggerMode : Bool
  triggerLevel : Nat
  deriving DecidableEq, Repr

/-- Every global of the sketch, the two ADC registers it touches, the
transport, and the readings the foreground will see when it polls `ADCH`. -/
structure State where
  /-- global `volatile byte analogBuffer[400]` -/
  analogBuffer : List Nat
  /-- global `volatile byte bufferIndex` -/
  bufferIndex : Nat
  /-- global `volatile boolean samplingActive` -/
  samplingActive : Bool
  /-- global `volatile byte adcPrescaler` -/
  adcPrescaler : Nat
  /-- global `boolean samplingPaused` -/
  samplingPaused : Bool
  /-- global `SamplingSettings settings` -/
  settings : SamplingSettings
  /-- the 8-bit register `ADCSRA` -/
  ADCSRA : Nat
  /-- the 8-bit register `ADMUX` -/
  ADMUX : Nat
  /-- bytes written to the transport so far, oldest first -/
  serialOut : List Nat
  /-- bytes waiting in the receive queue, oldest first -/
  serialIn : List Nat
  /-- successive values of `ADCH` seen by foreground polls, next one first -/
  adchReadings : List Nat
  deriving DecidableEq, Repr

/-- Table `const byte prescalers[] = {2, 4, 8, 16, 32, 64, 128}`. -/
def prescalers : List Nat := [2, 4, 8, 16, 32, 64, 128]

/-- The decimal literals of `samplingRates[]`, in tenths:
`{615.4, 307.7, 153.8, 76.9, 38.5, 19.2, 9.6}`. -/
def samplingRatesTenths : List Nat := [6154, 3077, 1538, 769, 385, 192, 96]

/-- Table `const float samplingRates[]`: the binary32 value of each literal, times
`2^20`.  (615.4000244140625, 307.70001220703125, 153.8000030517578125,
76.90000152587890625, 38.5, 19.200000762939453125, 9.6000003814697265625.) -/
def samplingRates : List Nat :=
  [645293696, 322646848, 161270992, 80635496, 40370176, 20132660, 10066330]

/-- Number of binary digits of `n`, counted by halving (`fuel` bounds the
number of halvings). -/
def bitLengthAux : Nat → Nat → Nat
  | 0, _ => 0
  | fuel + 1, n => if n = 0 then 0 else bitLengthAux fuel (n / 2) + 1

/-- Number of binary digits of `n` (0 for 0). -/
def bitLength (n : Nat) : Nat := bitLengthAux n n

/-- Round a non-negative value (scaled by `2^20`) to the nearest binary32
value, ties to even: keep 24 significant bits. -/
def f32Round (n : Nat) : Nat :=
  let bits := bitLength n
  if bits ≤ 24 then n
  else
    let sh := bits - 24
    let q := n / 2 ^ sh
    let r := n % 2 ^ sh
    let half := 2 ^ (sh - 1)
    let q1 := if half < r ∨ (r = half ∧ q % 2 = 1) then q + 1 else q
    q1 * 2 ^ sh

/-- Cast `(int) x` for a non-negative binary32 `x`: truncation. -/
def f32ToInt (x : Nat) : Nat := x / 2 ^ 20

/-- An `int` as a binary32 value (exact for the small integers used here,
rounded like any other conversion). -/
def f32OfInt (i : Nat) : Nat := f32Round (i * 2 ^ 20)

/-- Difference `x - y` in binary32, for `y ≤ x`. -/
def f32Sub (x y : Nat) : Nat := f32Round (x - y)

/-- Product `x * k` in binary32, for an `int` factor `k` that converts to
`float` exactly (the source multiplies by the constant 100); the exact product
is again a multiple of `2^-20`, which is then rounded. -/
def f32MulInt (x k : Nat) : Nat := f32Round (x * k)

/-- Cast `(byte) x` for a non-negative binary32 `x`: truncate, keep the low byte. -/
def f32ToByte (x : Nat) : Nat := f32ToInt x % 256

/-- Expression `condition ? 0x01 : 0x00`. -/
def boolByte (b : Bool) : Nat := if b then 1 else 0

/-! ## Transport -/

/-- Call `Serial.write(b)`. -/
def Serial_write (b : Nat) (s : State) : State :=
  { s with serialOut := s.serialOut ++ [b] }

/-- The bytes of `Serial.println(text)`: the characters, then CR LF. -/
def printlnBytes (text : String) : List Nat :=
  text.toList.map Char.toNat ++ [13, 10]

/-- Call `Serial.println(text)`. -/
def Serial_println (text : String) (s : State) : State :=
  { s with serialOut := s.serialOut ++ printlnBytes text }

/-! ## The functions of `main.c` -/

/-- The busy-wait of `waitForTrigger` over the coming `ADCH` readings: skip
readings below the level, stop on (and consume) the first one that reaches it.
`none` when no coming reading reaches the level. -/
def pollTrigger (level : Nat) : List Nat → Option (List Nat)
  | [] => none
  | r :: rest => if level ≤ r then some rest else pollTrigger level rest

/-- Function `void waitForTrigger()`. -/
def waitForTrigger (s : State) : Option State :=
  if !s.settings.triggerMode then some s
  else
    match pollTrigger s.settings.triggerLevel s.adchReadings with
    | none => none
    | some rest => some { s with adchReadings := rest }

/-- Function `void setInputChannel(byte channel)`. -/
def setInputChannel (channel : Nat) (s : State) : State :=
  if channel > 5 then s
  else
    { s with
      ADMUX := (s.ADMUX &&& 0xF0) ||| channel
      settings := { s.settings with inputChannel := channel } }

/-- Statement `reg &= ~mask` on an 8-bit register. -/
def clearBits (reg mask : Nat) : Nat := reg &&& (0xFF ^^^ mask)

/-- Function `void setADCPrescaler(byte prescalerIndex)`. -/
def setADCPrescaler (prescalerIndex : Nat) (s : State) : State :=
  if prescalerIndex ≥ 7 then s
  else
    let s1 := { s with ADCSRA := clearBits s.ADCSRA (1 <<< ADEN) }
    let s2 := { s1 with ADCSRA := 0 }
    let ps := prescalers.getD prescalerIndex 0
    let s3 := if ps &&& 1 ≠ 0 then { s2 with ADCSRA := s2.ADCSRA ||| (1 <<< ADPS0) } else s2
    let s4 := if ps &&& 2 ≠ 0 then { s3 with ADCSRA := s3.ADCSRA ||| (1 <<< ADPS1) } else s3
    let s5 := if ps &&& 4 ≠ 0 then { s4 with ADCSRA := s4.ADCSRA ||| (1 <<< ADPS2) } else s4
    let s6 := { s5 with ADCSRA := s5.ADCSRA ||| ((1 <<< ADEN) ||| (1 <<< ADATE) ||| (1 <<< ADIE)) }
    { s6 with settings := { s6.settings with prescalerIndex := prescalerIndex } }

/-- Function `void setVoltageReference(boolean useInternal)`. -/
def setVoltageReference (useInternal : Bool) (s : State) : State :=
  let m :=
    if useInternal then s.ADMUX ||| (1 <<< REFS0)
    else s.ADMUX ||| ((1 <<< REFS0) ||| (1 <<< REFS1))
  { s with ADMUX := m, settings := { s.settings with useVref := useInternal } }

/-- Function `void initializeADC()`. -/
def initializeADC (s : State) : State :=
  let s1 := { s with ADCSRA := 0 }
  let s2 := setInputChannel s1.settings.inputChannel s1
  let s3 := setADCPrescaler s2.settings.prescalerIndex s2
  let s4 := setVoltageReference s3.settings.useVref s3
  let s5 := { s4 with ADCSRA := s4.ADCSRA ||| ((1 <<< ADATE) ||| (1 <<< ADIE)) }
  { s5 with ADCSRA := s5.ADCSRA ||| (1 <<< ADSC) }

/-- Function `void setup()`; `Serial.begin` only configures the link. -/
def setup (s : State) : State := initializeADC s

/-- The `for` loop of `sendDataFrame`: `Serial.write(analogBuffer[i])` for
`i = from, from + 1, ..., from + count - 1`. -/
def writeBuffer : Nat → Nat → State → State
  | _, 0, s => s
  | i, n + 1, s => writeBuffer (i + 1) n (Serial_write (s.analogBuffer.getD i 0) s)

/-- Function `void sendDataFrame()`. -/
def sendDataFrame (s : State) : State :=
  let s1 := Serial_write 0xFF s
  let s2 := Serial_write 0xAA s1
  let s3 := writeBuffer 0 400 s2
  let s4 := Serial_write 0x55 s3
  Serial_write 0xEE s4

/-- Function `void sendSettings()`.  The table is read at `adcPrescaler`; an index
beyond the table has no defined value, hence `none`. -/
def sendSettings (s : State) : Option State :=
  match samplingRates.get? s.adcPrescaler with
  | none => none
  | some rate =>
    let s1 := Serial_write 0x53 s
    let s2 := Serial_write s1.adcPrescaler s1
    let s3 := Serial_write (f32ToByte rate) s2
    some (Serial_write
      (f32ToByte (f32MulInt (f32Sub rate (f32OfInt (f32ToInt rate))) 100)) s3)

/-- Function `void startSampling()`. -/
def startSampling (s : State) : State :=
  let s1 := { s with samplingPaused := false }
  let s2 := { s1 with bufferIndex := 0 }
  let s3 := { s2 with ADCSRA := s2.ADCSRA ||| ((1 <<< ADEN) ||| (1 <<< ADATE) ||| (1 <<< ADIE)) }
  let s4 := { s3 with ADCSRA := s3.ADCSRA ||| (1 <<< ADSC) }
  Serial_println "Sampling STARTED" s4

/-- Function `void stopSampling()`. -/
def stopSampling (s : State) : State :=
  let s1 := { s with samplingPaused := true }
  let s2 := { s1 with ADCSRA := clearBits s1.ADCSRA (1 <<< ADATE) }
  Serial_println "Sampling STOPPED" s2

/-- Function `void sendSamplingStatus()`. -/
def sendSamplingStatus (s : State) : State :=
  let s1 := Serial_write 0x58 s
  let s2 := Serial_write (boolByte s1.samplingActive) s1
  Serial_write (boolByte s2.samplingPaused) s2

/-- Function `void toggleSampling()`. -/
def toggleSampling (s : State) : State :=
  let s1 := { s with samplingActive := !s.samplingActive }
  let s2 := if s1.samplingActive then startSampling s1 else stopSampling s1
  sendSamplingStatus s2

/-- Function `void handleSerialCommands()`.  `case 'P'` spins on
`while (!Serial.available());`, which never ends on an empty queue. -/
def handleSerialCommands (s : State) : Option State :=
  match s.serialIn with
  | [] => some s
  | c :: rest =>
    let command := c % 256
    let s1 := { s with serialIn := rest }
    if command = 0x50 then
      match s1.serialIn with
      | [] => none
      | p :: rest2 =>
        let prescaler := p % 256
        sendSettings (setADCPrescaler prescaler { s1 with serialIn := rest2 })
    else if command = 0x53 then some (toggleSampling s1)
    else if command = 0x52 then sendSettings s1
    else some s1

/-- Function `void loop()`. -/
def loop (s : State) : Option State :=
  match handleSerialCommands s with
  | none => none
  | some s1 =>
    if s1.bufferIndex ≥ 400 && s1.samplingActive then
      let s2 := sendDataFrame s1
      let s3 := { s2 with bufferIndex := 0 }
      if s3.settings.triggerMode then waitForTrigger s3 else some s3
    else some s1

/-- Function `void setTriggerMode(boolean enabled, byte level)`. -/
def setTriggerMode (enabled : Bool) (level : Nat) (s : State) : State :=
  let s1 := { s with settings := { s.settings with triggerMode := enabled } }
  { s1 with settings := { s1.settings with triggerLevel := level } }

/-- Handler `ISR(ADC_vect)`, with `adch` the value `ADCH` holds when the handler runs.
`bufferIndex` is a `byte`, so `bufferIndex++` wraps at 256. -/
def ISR_ADC_vect (adch : Nat) (s : State) : State :=
  if s.samplingActive && decide (s.bufferIndex < 400) then
    { s with
      analogBuffer := s.analogBuffer.set s.bufferIndex adch
      bufferIndex := (s.bufferIndex + 1) % 256 }
  else s

/-! ## Power-on -/

/-- The machine right after reset: the globals hold their initialisers
(`analogBuffer` is zero-filled static storage), both ADC registers read 0,
nothing has been sent or received. -/
def resetState : State :=
  { analogBuffer := List.replicate 400 0
    bufferIndex := 0
    samplingActive := true
    adcPrescaler := 2
    samplingPaused := false
    settings :=
      { prescalerIndex := 3, inputChannel := 0, useVref := false,
        triggerMode := false, triggerLevel := 128 }
    ADCSRA := 0
    ADMUX := 0
    serialOut := []
    serialIn := []
    adchReadings := [] }

/-- The power-on state: `setup()` has run, `loop()` has not yet. -/
def powerOn : State := setup resetState

/-- The host puts one byte on the link. -/
def hostSends (b : Nat) (s : State) : State :=
  { s with serialIn := s.serialIn ++ [b] }

/-- Deliver a sequence of samples to the conversion-complete handler, one
invocation per sample, first sample first. -/
def deliver : List Nat → State → State
  | [], s => s
  | a :: rest, s => deliver rest (ISR_ADC_vect a s)

/-! ## Specification vocabulary -/

/-- The wire image of a data frame carrying the samples `buf`. -/
def dataFrame (buf : List Nat) : List Nat := [0xFF, 0xAA] ++ buf ++ [0x55, 0xEE]

/-- The settings frame the spec describes for divider index `i`: `'S'`, `i`,
the integer part of the table entry, the hundredths of its fractional part
(read off the decimal literals of the table). -/
def settingsFrameFor (i : Nat) : Option (List Nat) :=
  (samplingRatesTenths.get? i).map fun tenths => [0x53, i, tenths / 10, tenths % 10 * 10]

/-- The wire image of a status frame for the flags of `s`. -/
def statusFrame (s : State) : List Nat :=
  [0x58, boolByte s.samplingActive, boolByte s.samplingPaused]

/-- The text line `startSampling` / `stopSampling` print. -/
def samplingBanner (active : Bool) : List Nat :=
  printlnBytes (if active then "Sampling STARTED" else "Sampling STOPPED")

/-- States the device can be in between foreground steps: the power-on state,
then any interleaving of bytes arriving from the host, conversion-complete
handler invocations, new latch readings becoming available to the foreground,
and completed `loop()` iterations. -/
inductive Reachable : State → Prop
  | start : Reachable powerOn
  | recv (b : Nat) {s : State} : Reachable s → Reachable (hostSends b s)
  | sample (adch : Nat) {s : State} : Reachable s → Reachable (ISR_ADC_vect adch s)
  | latch (r : Nat) {s : State} :
      Reachable s → Reachable { s with adchReadings := s.adchReadings ++ [r] }
  | iterate {s t : State} : Reachable s → loop s = some t → Reachable t

/-! # Theorems -/

/-! ## Data frame -/

theorem writeBuffer_eq (n : Nat) : ∀ (i : Nat) (s : State),
    writeBuffer i n s =
      { s with serialOut :=
          s.serialOut ++ (List.range' i n).map (fun j => s.analogBuffer.getD j 0) } := by
  induction n with
  | zero => intro i s; simp [writeBuffer]
  | succ n ih =>
    intro i s
    rw [writeBuffer, ih]
    simp [Serial_write, List.range'_succ]

theorem map_getD_range (l : List Nat) :
    (List.range' 0 l.length).map (fun j => l.getD j 0) = l := by
  apply List.ext_getElem
  · simp
  · intro k h1 h2
    simp [List.getD_eq_getElem?_getD, List.getElem?_eq_getElem h2]

theorem sendDataFrame_eq (s : State) (hbuf : s.analogBuffer.length = 400) :
    sendDataFrame s = { s with serialOut := s.serialOut ++ dataFrame s.analogBuffer } := by
  have h := map_getD_range s.analogBuffer
  rw [hbuf] at h
  simp only [sendDataFrame, writeBuffer_eq, Serial_write, dataFrame, h]
  simp

/-- C3. For every content of the 400-byte sample buffer, `sendDataFrame`
appends to the transport exactly the 404 bytes `0xFF 0xAA`, the buffer from
index 0 to index 399, `0x55 0xEE`, and changes nothing else: the buffer, the
cursor, the sampling flags, the settings and the registers are as before. -/
theorem sendDataFrame_writes_frame (s : State) (hbuf : s.analogBuffer.length = 400) :
    sendDataFrame s =
        { s with serialOut := s.serialOut ++ ([0xFF, 0xAA] ++ s.analogBuffer ++ [0x55, 0xEE]) }
      ∧ ([0xFF, 0xAA] ++ s.analogBuffer ++ [0x55, 0xEE]).length = 404
      ∧ (∀ i, i < 400 →
          ([0xFF, 0xAA] ++ s.analogBuffer ++ [0x55, 0xEE]).get? (i + 2)
            = s.analogBuffer.get? i) := by
  refine ⟨sendDataFrame_eq s hbuf, by simp [hbuf], ?_⟩
  intro i hi
  have hlt : i < s.analogBuffer.length := by omega
  simp [List.getElem?_append_left, hlt]

theorem resetState_buffer_length : resetState.analogBuffer.length = 400 :=
  List.length_replicate 400 0

theorem sendDataFrame_writes_frame_witness :
    resetState.analogBuffer.length = 400
      ∧ sendDataFrame resetState =
        { resetState with serialOut :=
            resetState.serialOut ++ ([0xFF, 0xAA] ++ resetState.analogBuffer ++ [0x55, 0xEE]) }
      ∧ ([0xFF, 0xAA] ++ resetState.analogBuffer ++ [0x55, 0xEE]).length = 404
      ∧ (∀ i, i < 400 →
          ([0xFF, 0xAA] ++ resetState.analogBuffer ++ [0x55, 0xEE]).get? (i + 2)
            = resetState.analogBuffer.get? i) :=
  ⟨resetState_buffer_length, sendDataFrame_writes_frame resetState resetState_buffer_length⟩

/-! ## Power-on state -/

theorem powerOn_eq : powerOn = { resetState with ADCSRA := 232, ADMUX := 192 } := rfl

theorem powerOn_buffer_length : powerOn.analogBuffer.length = 400 :=
  List.length_replicate 400 0

/-! ## Configuration store -/

/-- C9. For every index outside the divider table (index >= 7),
`setADCPrescaler` returns the state it was given: the settings record, ADCSRA,
ADMUX and the transport output are unchanged, so nothing is written. -/
theorem setADCPrescaler_invalid_ignored (prescalerIndex : Nat) (s : State)
    (h : 7 ≤ prescalerIndex) : setADCPrescaler prescalerIndex s = s := by
  simp [setADCPrescaler, h]

theorem setADCPrescaler_invalid_ignored_witness :
    7 ≤ 7 ∧ setADCPrescaler 7 powerOn = powerOn :=
  ⟨by decide, setADCPrescaler_invalid_ignored 7 powerOn (by decide)⟩

set_option maxRecDepth 100000 in
theorem channel_bits :
    ∀ m, m < 256 → ∀ ch, ch < 6 →
      ((m &&& 0xF0) ||| ch) % 16 = ch ∧ ((m &&& 0xF0) ||| ch) / 16 = m / 16 := by
  decide

/-- C10. `setInputChannel ch` is accepted exactly when `ch` is in 0..5.
When accepted it records `settings.inputChannel = ch` and rewrites only ADMUX,
whose low four bits become `ch` while its high four bits are kept.  When
`ch > 5` the whole state (settings, ADMUX, transport output) is unchanged. -/
theorem setInputChannel_validated (channel : Nat) (s : State) (hreg : s.ADMUX < 256) :
    (channel ≤ 5 →
        setInputChannel channel s =
            { s with
              ADMUX := (s.ADMUX &&& 0xF0) ||| channel
              settings := { s.settings with inputChannel := channel } }
          ∧ (setInputChannel channel s).settings.inputChannel = channel
          ∧ (setInputChannel channel s).ADMUX % 16 = channel
          ∧ (setInputChannel channel s).ADMUX / 16 = s.ADMUX / 16
          ∧ (setInputChannel channel s).serialOut = s.serialOut)
      ∧ (5 < channel → setInputChannel channel s = s) := by
  constructor
  · intro h
    have hb := channel_bits s.ADMUX hreg channel (by omega)
    have hn : ¬ channel > 5 := by omega
    simp [setInputChannel, hn, hb.1, hb.2]
  · intro h
    simp [setInputChannel, h]

theorem setInputChannel_validated_witness :
    powerOn.ADMUX < 256
      ∧ (3 ≤ 5 →
        setInputChannel 3 powerOn =
            { powerOn with
              ADMUX := (powerOn.ADMUX &&& 0xF0) ||| 3
              settings := { powerOn.settings with inputChannel := 3 } }
          ∧ (setInputChannel 3 powerOn).settings.inputChannel = 3
          ∧ (setInputChannel 3 powerOn).ADMUX % 16 = 3
          ∧ (setInputChannel 3 powerOn).ADMUX / 16 = powerOn.ADMUX / 16
          ∧ (setInputChannel 3 powerOn).serialOut = powerOn.serialOut)
      ∧ (5 < 3 → setInputChannel 3 powerOn = powerOn) :=
  ⟨by decide, setInputChannel_validated 3 powerOn (by decide)⟩

/-! ## Conversion-complete handler -/

/-- A `byte` cursor is always below 400, so an enabled handler always stores. -/
theorem ISR_accepts (adch : Nat) (s : State) (hact : s.samplingActive = true)
    (hidx : s.bufferIndex < 256) :
    ISR_ADC_vect adch s =
      { s with
        analogBuffer := s.analogBuffer.set s.bufferIndex adch
        bufferIndex := (s.bufferIndex + 1) % 256 } := by
  have h400 : s.bufferIndex < 400 := by omega
  simp [ISR_ADC_vect, hact, h400]

/-- The handler touches nothing but the buffer and the cursor, and keeps the
buffer length. -/
theorem ISR_frame (adch : Nat) (s : State) :
    ∃ buf idx, ISR_ADC_vect adch s = { s with analogBuffer := buf, bufferIndex := idx }
      ∧ buf.length = s.analogBuffer.length := by
  unfold ISR_ADC_vect
  split
  · exact ⟨_, _, rfl, by simp⟩
  · exact ⟨s.analogBuffer, s.bufferIndex, rfl, rfl⟩

theorem deliver_frame (samples : List Nat) : ∀ s : State,
    ∃ buf idx, deliver samples s = { s with analogBuffer := buf, bufferIndex := idx }
      ∧ buf.length = s.analogBuffer.length := by
  induction samples with
  | nil => intro s; exact ⟨s.analogBuffer, s.bufferIndex, rfl, rfl⟩
  | cons a rest ih =>
    intro s
    obtain ⟨b1, i1, h1, l1⟩ := ISR_frame a s
    obtain ⟨b2, i2, h2, l2⟩ := ih (ISR_ADC_vect a s)
    refine ⟨b2, i2, ?_, ?_⟩
    · rw [deliver, h2, h1]
    · rw [l2, h1]; exact l1

/-- With sampling enabled the cursor after delivering `samples` is the old
cursor plus the number of samples, modulo 256. -/
theorem deliver_cursor (samples : List Nat) : ∀ s : State,
    s.samplingActive = true → s.bufferIndex < 256 →
      (deliver samples s).bufferIndex = (s.bufferIndex + samples.length) % 256 := by
  induction samples with
  | nil => intro s _ hidx; simp [deliver, Nat.mod_eq_of_lt hidx]
  | cons a rest ih =>
    intro s hact hidx
    have hlt : (s.bufferIndex + 1) % 256 < 256 := Nat.mod_lt _ (by decide)
    have hstep := ih _ (show (ISR_ADC_vect a s).samplingActive = true by
        rw [ISR_accepts a s hact hidx]; exact hact)
      (show (ISR_ADC_vect a s).bufferIndex < 256 by
        rw [ISR_accepts a s hact hidx]; exact hlt)
    rw [deliver, hstep, ISR_accepts a s hact hidx]
    simp only [List.length_cons]
    omega

/-- A loop iteration with no command byte pending and a cursor that fits a
`byte` does nothing at all. -/
theorem loop_idle (s : State) (hin : s.serialIn = []) (hidx : s.bufferIndex < 256) :
    loop s = some s := by
  have h400 : ¬ 400 ≤ s.bufferIndex := by omega
  simp [loop, handleSerialCommands, hin, h400]

/-- C1 (what the code does). From any state with sampling enabled, trigger
mode off, the cursor at 0 and no command byte pending, after 400 samples have
been delivered to `ISR(ADC_vect)` the next `loop()` iteration writes nothing
to the transport and changes nothing: the `byte` cursor stands at
400 mod 256 = 144, so `bufferIndex >= 400` is false and no data frame is
sent. -/
theorem loop_after_400_samples_sends_nothing (s : State) (samples : List Nat)
    (hact : s.samplingActive = true) (_htrig : s.settings.triggerMode = false)
    (hidx : s.bufferIndex = 0) (hin : s.serialIn = []) (hlen : samples.length = 400) :
    loop (deliver samples s) = some (deliver samples s)
      ∧ (deliver samples s).serialOut = s.serialOut
      ∧ (deliver samples s).bufferIndex = 144 := by
  have hc : (deliver samples s).bufferIndex = 144 := by
    rw [deliver_cursor samples s hact (by omega), hidx, hlen]
  obtain ⟨buf, idx, hd, _⟩ := deliver_frame samples s
  have hin2 : (deliver samples s).serialIn = [] := by rw [hd]; exact hin
  have hout : (deliver samples s).serialOut = s.serialOut := by rw [hd]
  exact ⟨loop_idle _ hin2 (by omega), hout, hc⟩

theorem loop_after_400_samples_sends_nothing_witness :
    powerOn.samplingActive = true ∧ powerOn.settings.triggerMode = false
      ∧ powerOn.bufferIndex = 0 ∧ powerOn.serialIn = []
      ∧ (List.replicate 400 7).length = 400
      ∧ loop (deliver (List.replicate 400 7) powerOn)
          = some (deliver (List.replicate 400 7) powerOn)
      ∧ (deliver (List.replicate 400 7) powerOn).serialOut = powerOn.serialOut
      ∧ (deliver (List.replicate 400 7) powerOn).bufferIndex = 144 :=
  ⟨rfl, rfl, rfl, rfl, List.length_replicate 400 7,
    loop_after_400_samples_sends_nothing powerOn (List.replicate 400 7) rfl rfl rfl rfl
      (List.length_replicate 400 7)⟩

/-- C2 (what the code does). From a state with sampling enabled and the cursor
at 0, after 400 handler invocations the `byte` cursor stands at 144, not 400,
and the 401st invocation is accepted: it stores its sample at position 144
(over the 145th sample) and moves the cursor to 145. -/
theorem handler_accepts_401st_sample (s : State) (samples : List Nat) (extra : Nat)
    (hact : s.samplingActive = true) (hidx : s.bufferIndex = 0)
    (hbuf : s.analogBuffer.length = 400) (hlen : samples.length = 400) :
    (deliver samples s).bufferIndex = 144
      ∧ (ISR_ADC_vect extra (deliver samples s)).bufferIndex = 145
      ∧ (ISR_ADC_vect extra (deliver samples s)).analogBuffer
          = (deliver samples s).analogBuffer.set 144 extra
      ∧ (ISR_ADC_vect extra (deliver samples s)).analogBuffer.get? 144 = some extra := by
  have hc : (deliver samples s).bufferIndex = 144 := by
    rw [deliver_cursor samples s hact (by omega), hidx, hlen]
  obtain ⟨buf, idx, hd, hl⟩ := deliver_frame samples s
  have hact2 : (deliver samples s).samplingActive = true := by rw [hd]; exact hact
  have hl2 : (deliver samples s).analogBuffer.length = 400 := by rw [hd]; simpa [hbuf] using hl
  rw [ISR_accepts extra _ hact2 (by omega), hc]
  refine ⟨rfl, rfl, rfl, ?_⟩
  simp [List.getElem?_set, hl2]

theorem handler_accepts_401st_sample_witness :
    powerOn.samplingActive = true ∧ powerOn.bufferIndex = 0
      ∧ powerOn.analogBuffer.length = 400 ∧ (List.replicate 400 7).length = 400
      ∧ (deliver (List.replicate 400 7) powerOn).bufferIndex = 144
      ∧ (ISR_ADC_vect 9 (deliver (List.replicate 400 7) powerOn)).bufferIndex = 145
      ∧ (ISR_ADC_vect 9 (deliver (List.replicate 400 7) powerOn)).analogBuffer
          = (deliver (List.replicate 400 7) powerOn).analogBuffer.set 144 9
      ∧ (ISR_ADC_vect 9 (deliver (List.replicate 400 7) powerOn)).analogBuffer.get? 144
          = some 9 :=
  ⟨rfl, rfl, powerOn_buffer_length, List.length_replicate 400 7,
    handler_accepts_401st_sample powerOn (List.replicate 400 7) 9 rfl rfl
      powerOn_buffer_length (List.length_replicate 400 7)⟩

/-! ## Settings frame -/

/-- Every entry of `samplingRates` is a binary32 value (24 significant bits)
and no further than half a unit in the last place from its decimal literal. -/
theorem samplingRates_binary32 :
    ∀ i, i < 7 →
      f32Round (samplingRates.getD i 0) = samplingRates.getD i 0
        ∧ 10 * samplingRates.getD i 0
            ≤ samplingRatesTenths.getD i 0 * 2 ^ 20
              + 5 * 2 ^ (bitLength (samplingRates.getD i 0) - 24)
        ∧ samplingRatesTenths.getD i 0 * 2 ^ 20
            ≤ 10 * samplingRates.getD i 0
              + 5 * 2 ^ (bitLength (samplingRates.getD i 0) - 24) := by
  decide

/-- With `adcPrescaler = 2` the reply of `sendSettings` is `'S', 2, 153, 80`. -/
theorem sendSettings_eq (s : State) (hp : s.adcPrescaler = 2) :
    sendSettings s = some { s with serialOut := s.serialOut ++ [0x53, 2, 153, 80] } := by
  have h1 : f32ToByte 161270992 = 153 := by decide
  have h2 : f32ToByte (f32MulInt (f32Sub 161270992 (f32OfInt (f32ToInt 161270992))) 100)
      = 80 := by decide
  simp [sendSettings, hp, samplingRates, Serial_write, h1, h2]

/-- Frame of `setADCPrescaler`: it never writes `adcPrescaler`, the transport
or the flags. -/
theorem setADCPrescaler_frame (i : Nat) (s : State) :
    ∃ a st, setADCPrescaler i s = { s with ADCSRA := a, settings := st } := by
  unfold setADCPrescaler
  split
  · exact ⟨s.ADCSRA, s.settings, rfl⟩
  · simp only []
    split <;> split <;> split <;> exact ⟨_, _, rfl⟩

/-- C4 (what the code does). For every divider index `i` in 0..6 and every
state in which `adcPrescaler` still holds its initial value 2 (no function
ever assigns it), `setADCPrescaler i` records `settings.prescalerIndex = i`,
yet the settings query that follows writes `'S', 2, 153, 80`: the frame of
table entry 2, whatever `i` is. -/
theorem settings_query_ignores_divider (s : State) (i : Nat) (hi : i < 7)
    (hp : s.adcPrescaler = 2) :
    (setADCPrescaler i s).settings.prescalerIndex = i
      ∧ ∃ t, sendSettings (setADCPrescaler i s) = some t
          ∧ t.serialOut = s.serialOut ++ [0x53, 2, 153, 80] := by
  have hn : ¬ i ≥ 7 := by omega
  constructor
  · simp only [setADCPrescaler, hn, if_false]
  · obtain ⟨a, st, h⟩ := setADCPrescaler_frame i s
    have hp2 : (setADCPrescaler i s).adcPrescaler = 2 := by rw [h]; exact hp
    refine ⟨_, sendSettings_eq _ hp2, ?_⟩
    rw [h]

theorem settings_query_ignores_divider_witness :
    3 < 7 ∧ powerOn.adcPrescaler = 2
      ∧ (setADCPrescaler 3 powerOn).settings.prescalerIndex = 3
      ∧ ∃ t, sendSettings (setADCPrescaler 3 powerOn) = some t
          ∧ t.serialOut = powerOn.serialOut ++ [0x53, 2, 153, 80] :=
  ⟨by decide, rfl, settings_query_ignores_divider powerOn 3 (by decide) rfl⟩

/-- C5 (what the code does). In the power-on state (`samplingActive = true`,
`settings.prescalerIndex = 3`) the command byte `'R'` is consumed, the four
bytes `'S', 2, 153, 80` are written, and nothing else changes; the frame the
claim expects, `'S', 3, 76, 90`, is the one of table entry 3. -/
theorem query_at_power_on :
    powerOn.settings.prescalerIndex = 3 ∧ powerOn.samplingActive = true
      ∧ handleSerialCommands (hostSends 0x52 powerOn)
          = some { powerOn with serialOut := [0x53, 2, 153, 80] }
      ∧ settingsFrameFor 3 = some [0x53, 3, 76, 90] := by
  refine ⟨rfl, rfl, ?_, by decide⟩
  have h := sendSettings_eq powerOn rfl
  simp only [handleSerialCommands, hostSends]
  exact h

/-! ## Sampling controller -/

theorem toggleSampling_of_active (s : State) (h : s.samplingActive = true) :
    toggleSampling s =
      { s with
        samplingActive := false
        samplingPaused := true
        ADCSRA := clearBits s.ADCSRA (1 <<< ADATE)
        serialOut := s.serialOut ++ printlnBytes "Sampling STOPPED" ++ [0x58, 0, 1] } := by
  simp [toggleSampling, h, stopSampling, sendSamplingStatus, Serial_write, Serial_println,
    boolByte]

theorem toggleSampling_of_inactive (s : State) (h : s.samplingActive = false) :
    toggleSampling s =
      { s with
        samplingActive := true
        samplingPaused := false
        bufferIndex := 0
        ADCSRA := s.ADCSRA ||| ((1 <<< ADEN) ||| (1 <<< ADATE) ||| (1 <<< ADIE)) ||| (1 <<< ADSC)
        serialOut := s.serialOut ++ printlnBytes "Sampling STARTED" ++ [0x58, 1, 0] } := by
  simp [toggleSampling, h, startSampling, sendSamplingStatus, Serial_write, Serial_println,
    boolByte]

/-- After `toggleSampling` the paused flag is the negation of the enabled flag. -/
theorem toggleSampling_paused (s : State) :
    (toggleSampling s).samplingPaused = !(toggleSampling s).samplingActive := by
  cases h : s.samplingActive
  · rw [toggleSampling_of_inactive s h]; rfl
  · rw [toggleSampling_of_active s h]; rfl

/-- The header byte `'X'` occurs once in a banner line followed by a status
frame: in the frame, not in the line. -/
theorem banner_status_count : ∀ b e p : Bool,
    (samplingBanner b ++ [0x58, boolByte e, boolByte p]).count 0x58 = 1 := by
  decide

/-- C6 (as stated, refuted). From the power-on state the first `'S'` does
disable the device, but the bytes written are not the status frame
`'X', 0, 0`, nor do they end with it: the paused flag is set. -/
theorem first_toggle_reply_is_not_X_0_0 :
    ¬ ∃ t, handleSerialCommands (hostSends 0x53 powerOn) = some t
        ∧ t.samplingActive = false
        ∧ (t.serialOut = [0x58, 0, 0] ∨ [0x58, 0, 0] <:+ t.serialOut) := by
  rintro ⟨t, ht, -, hout⟩
  have h : handleSerialCommands (hostSends 0x53 powerOn)
      = some (toggleSampling powerOn) := rfl
  rw [h, toggleSampling_of_active powerOn rfl] at ht
  cases ht
  revert hout
  decide

/-- C6 (amended). From the power-on state (enabled, not paused), handling
`'S'` makes the device disabled and paused and writes the line
"Sampling STOPPED" (CR LF) followed by the status frame `'X', 0, 1`; handling
`'S'` a second time makes the device enabled and not paused and writes the
line "Sampling STARTED" (CR LF) followed by the status frame `'X', 1, 0`. -/
theorem toggle_scenario :
    powerOn.samplingActive = true ∧ powerOn.samplingPaused = false
      ∧ ∃ t1 t2,
          handleSerialCommands (hostSends 0x53 powerOn) = some t1
            ∧ t1.samplingActive = false ∧ t1.samplingPaused = true
            ∧ t1.serialOut
                = powerOn.serialOut ++ printlnBytes "Sampling STOPPED" ++ [0x58, 0, 1]
            ∧ handleSerialCommands (hostSends 0x53 t1) = some t2
            ∧ t2.samplingActive = true ∧ t2.samplingPaused = false
            ∧ t2.serialOut
                = t1.serialOut ++ printlnBytes "Sampling STARTED" ++ [0x58, 1, 0] := by
  refine ⟨rfl, rfl, toggleSampling powerOn, toggleSampling (toggleSampling powerOn), rfl, ?_⟩
  have h1 := toggleSampling_of_active powerOn rfl
  have hact : (toggleSampling powerOn).samplingActive = false := by rw [h1]
  have h2 := toggleSampling_of_inactive (toggleSampling powerOn) hact
  exact ⟨hact, by rw [h1], by rw [h1], rfl, by rw [h2], by rw [h2], by rw [h2]⟩

/-- C7. For every state, two calls of `toggleSampling` bring `samplingActive`
back to its original value, and each call appends to the transport one text
line (which holds no `'X'` byte) followed by one status frame `'X', e, p`
whose `e` and `p` are the enabled and paused flags as they are after that
call: exactly one status frame per call. -/
theorem toggleSampling_involution (s : State) :
    (toggleSampling (toggleSampling s)).samplingActive = s.samplingActive
      ∧ (toggleSampling s).serialOut
          = s.serialOut ++ samplingBanner (toggleSampling s).samplingActive
              ++ statusFrame (toggleSampling s)
      ∧ (toggleSampling (toggleSampling s)).serialOut
          = (toggleSampling s).serialOut
              ++ samplingBanner (toggleSampling (toggleSampling s)).samplingActive
              ++ statusFrame (toggleSampling (toggleSampling s))
      ∧ (samplingBanner (toggleSampling s).samplingActive
            ++ statusFrame (toggleSampling s)).count 0x58 = 1
      ∧ (samplingBanner (toggleSampling (toggleSampling s)).samplingActive
            ++ statusFrame (toggleSampling (toggleSampling s))).count 0x58 = 1 := by
  have key : ∀ u : State,
      (toggleSampling u).samplingActive = !u.samplingActive
        ∧ (toggleSampling u).serialOut
            = u.serialOut ++ samplingBanner (toggleSampling u).samplingActive
                ++ statusFrame (toggleSampling u)
        ∧ (samplingBanner (toggleSampling u).samplingActive
              ++ statusFrame (toggleSampling u)).count 0x58 = 1 := by
    intro u
    cases h : u.samplingActive
    · rw [toggleSampling_of_inactive u h]
      exact ⟨rfl, rfl, banner_status_count true true false⟩
    · rw [toggleSampling_of_active u h]
      exact ⟨rfl, rfl, banner_status_count false false true⟩
  refine ⟨?_, (key s).2.1, (key (toggleSampling s)).2.1, (key s).2.2,
    (key (toggleSampling s)).2.2⟩
  rw [(key (toggleSampling s)).1, (key s).1, Bool.not_not]

/-! ## Reachable states -/

theorem sendSettings_frame (s t : State) (h : sendSettings s = some t) :
    ∃ out, t = { s with serialOut := out } := by
  unfold sendSettings at h
  split at h
  · cases h
  · cases h
    exact ⟨_, rfl⟩

theorem sendDataFrame_frame (s : State) :
    ∃ out, sendDataFrame s = { s with serialOut := out } :=
  ⟨s.serialOut ++ [0xFF] ++ [0xAA]
      ++ (List.range' 0 400).map (fun j => s.analogBuffer.getD j 0) ++ [0x55] ++ [0xEE],
    by simp only [sendDataFrame, writeBuffer_eq, Serial_write]⟩

theorem waitForTrigger_frame (s t : State) (h : waitForTrigger s = some t) :
    ∃ r, t = { s with adchReadings := r } := by
  unfold waitForTrigger at h
  split at h
  · cases h
    exact ⟨s.adchReadings, rfl⟩
  · split at h
    · cases h
    · cases h
      exact ⟨_, rfl⟩

/-- Handling a command keeps `samplingPaused = !samplingActive`. -/
theorem handleSerialCommands_flags (s t : State) (h : handleSerialCommands s = some t)
    (hinv : s.samplingPaused = !s.samplingActive) :
    t.samplingPaused = !t.samplingActive := by
  unfold handleSerialCommands at h
  split at h
  · cases h; exact hinv
  · simp only [] at h
    split at h
    · split at h
      · cases h
      · obtain ⟨out, ht⟩ := sendSettings_frame _ _ h
        obtain ⟨a, st, hs⟩ := setADCPrescaler_frame _ _
        rw [ht, hs]
        exact hinv
    · split at h
      · cases h
        exact toggleSampling_paused _
      · split at h
        · obtain ⟨out, ht⟩ := sendSettings_frame _ _ h
          rw [ht]
          exact hinv
        · cases h
          exact hinv

/-- A `loop()` iteration keeps `samplingPaused = !samplingActive`. -/
theorem loop_flags (s t : State) (h : loop s = some t)
    (hinv : s.samplingPaused = !s.samplingActive) :
    t.samplingPaused = !t.samplingActive := by
  unfold loop at h
  split at h
  · cases h
  · rename_i s1 hs1
    have h1 := handleSerialCommands_flags s s1 hs1 hinv
    split at h
    · obtain ⟨out, hd⟩ := sendDataFrame_frame s1
      rw [hd] at h
      simp only [] at h
      split at h
      · obtain ⟨r, hr⟩ := waitForTrigger_frame _ _ h
        rw [hr]
        exact h1
      · have ht := Option.some.inj h
        rw [← ht]
        exact h1
    · cases h
      exact h1

/-- In every reachable state the paused flag is the negation of the enabled
flag. -/
theorem reachable_flags (s : State) (h : Reachable s) :
    s.samplingPaused = !s.samplingActive := by
  induction h with
  | start => rfl
  | recv b _ ih => exact ih
  | @sample adch u _ ih =>
    obtain ⟨buf, idx, hu, _⟩ := ISR_frame adch u
    rw [hu]
    exact ih
  | latch r _ ih => exact ih
  | iterate _ hl ih => exact loop_flags _ _ hl ih

/-- C8 (as stated, refuted). A single `'S'` from the host takes the power-on
state to a reachable state with `samplingActive = false` and
`samplingPaused = true`: paused while disabled. -/
theorem paused_while_disabled_is_reachable :
    ¬ ∀ s, Reachable s → ¬ (s.samplingActive = false ∧ s.samplingPaused = true) := by
  intro h
  have hr : Reachable (toggleSampling powerOn) :=
    Reachable.iterate (Reachable.recv 0x53 Reachable.start) rfl
  exact h _ hr ⟨rfl, rfl⟩

/-- C8 (amended). In every state reachable from the power-on state by any
sequence of host bytes, handler invocations and loop iterations, the
controller is never paused while enabled: `samplingActive = true` together
with `samplingPaused = true` does not occur. -/
theorem never_paused_while_enabled (s : State) (h : Reachable s) :
    ¬ (s.samplingActive = true ∧ s.samplingPaused = true) := by
  rintro ⟨ha, hp⟩
  have hf := reachable_flags s h
  rw [ha, hp] at hf
  cases hf

theorem never_paused_while_enabled_witness :
    Reachable (ISR_ADC_vect 7 powerOn)
      ∧ ¬ ((ISR_ADC_vect 7 powerOn).samplingActive = true
            ∧ (ISR_ADC_vect 7 powerOn).samplingPaused = true) :=
  ⟨Reachable.sample 7 Reachable.start,
    never_paused_while_enabled _ (Reachable.sample 7 Reachable.start)⟩

/-! ## Command decoding -/

/-- C11. For every command byte other than `'P'`, `'S'` and `'R'` at the head
of the receive queue, `handleSerialCommands` consumes exactly that one byte
and does nothing else: nothing is written to the transport, and the flags, the
cursor, the buffer, the settings and the registers are as before. -/
theorem unrecognized_command_discarded (s : State) (c : Nat) (rest : List Nat)
    (hbyte : c < 256) (hP : c ≠ 0x50) (hS : c ≠ 0x53) (hR : c ≠ 0x52)
    (hin : s.serialIn = c :: rest) :
    handleSerialCommands s = some { s with serialIn := rest } := by
  have hc : c % 256 = c := Nat.mod_eq_of_lt hbyte
  simp [handleSerialCommands, hin, hc, hP, hS, hR]

theorem unrecognized_command_discarded_witness :
    (0x41 : Nat) < 256 ∧ (0x41 : Nat) ≠ 0x50 ∧ (0x41 : Nat) ≠ 0x53 ∧ (0x41 : Nat) ≠ 0x52
      ∧ (hostSends 0x42 (hostSends 0x41 powerOn)).serialIn = [0x41, 0x42]
      ∧ handleSerialCommands (hostSends 0x42 (hostSends 0x41 powerOn))
          = some { hostSends 0x42 (hostSends 0x41 powerOn) with serialIn := [0x42] } :=
  ⟨by decide, by decide, by decide, by decide, rfl,
    unrecognized_command_discarded (hostSends 0x42 (hostSends 0x41 powerOn)) 0x41 [0x42]
      (by decide) (by decide) (by decide) (by decide) rfl⟩

/-! ## Cursor wrap-around -/

/-- C12 (what the code does). From a state with sampling enabled and the
cursor at 0, after 255 handler invocations the cursor is 255, and the next
invocation stores its sample at position 255 and makes the cursor 0, not
256: the cursor decreases although no reset took place. -/
theorem handler_cursor_wraps_to_zero (s : State) (samples : List Nat) (extra : Nat)
    (hact : s.samplingActive = true) (hidx : s.bufferIndex = 0)
    (hlen : samples.length = 255) :
    (deliver samples s).bufferIndex = 255
      ∧ ISR_ADC_vect extra (deliver samples s)
          = { deliver samples s with
              analogBuffer := (deliver samples s).analogBuffer.set 255 extra
              bufferIndex := 0 }
      ∧ (ISR_ADC_vect extra (deliver samples s)).bufferIndex
          < (deliver samples s).bufferIndex := by
  have hc : (deliver samples s).bufferIndex = 255 := by
    rw [deliver_cursor samples s hact (by omega), hidx, hlen]
  obtain ⟨buf, idx, hd, _⟩ := deliver_frame samples s
  have hact2 : (deliver samples s).samplingActive = true := by rw [hd]; exact hact
  have hstep := ISR_accepts extra _ hact2 (by omega)
  rw [hc] at hstep
  refine ⟨hc, hstep, ?_⟩
  rw [hstep, hc]
  exact (by decide : (0 : Nat) < 255)

theorem handler_cursor_wraps_to_zero_witness :
    powerOn.samplingActive = true ∧ powerOn.bufferIndex = 0
      ∧ (List.replicate 255 7).length = 255
      ∧ (deliver (List.replicate 255 7) powerOn).bufferIndex = 255
      ∧ ISR_ADC_vect 9 (deliver (List.replicate 255 7) powerOn)
          = { deliver (List.replicate 255 7) powerOn with
              analogBuffer := (deliver (List.replicate 255 7) powerOn).analogBuffer.set 255 9
              bufferIndex := 0 }
      ∧ (ISR_ADC_vect 9 (deliver (List.replicate 255 7) powerOn)).bufferIndex
          < (deliver (List.replicate 255 7) powerOn).bufferIndex :=
  ⟨rfl, rfl, List.length_replicate 255 7,
    handler_cursor_wraps_to_zero powerOn (List.replicate 255 7) 9 rfl rfl
      (List.length_replicate 255 7)⟩

/-! ## Start and stop -/

/-- C15. For every state, whatever the cursor was, `stopSampling` followed by
`startSampling` leaves the buffer cursor at 0 and the paused flag cleared. -/
theorem stop_then_start_resets_cursor (s : State) :
    (startSampling (stopSampling s)).bufferIndex = 0
      ∧ (startSampling (stopSampling s)).samplingPaused = false := by
  simp [startSampling, stopSampling, Serial_println]

/-! ## Register bits -/

/-- Bits of `(a | ADEN|ADATE|ADIE) | ADSC`: the four named bits are set, every
other bit is the one of `a`. -/
theorem start_bits (a k : Nat) :
    ((a ||| ((1 <<< ADEN) ||| (1 <<< ADATE) ||| (1 <<< ADIE))) ||| (1 <<< ADSC)).testBit k
      = (decide (k = ADEN ∨ k = ADATE ∨ k = ADIE ∨ k = ADSC) || a.testBit k) := by
  simp only [Nat.testBit_or, Nat.one_shiftLeft, Nat.testBit_two_pow, ADEN, ADATE, ADIE, ADSC]
  by_cases h7 : k = 7 <;> by_cases h6 : k = 6 <;> by_cases h5 : k = 5 <;> by_cases h3 : k = 3 <;>
    simp [h7, h6, h5, h3, eq_comm]

/-- Bits of `a & ~(1 << ADATE)` in an 8-bit register: bit `ADATE` is cleared,
every other bit below 8 is the one of `a`. -/
theorem stop_bits (a k : Nat) :
    (clearBits a (1 <<< ADATE)).testBit k
      = (decide (k < 8 ∧ k ≠ ADATE) && a.testBit k) := by
  have hx : (0xFF : Nat) = 2 ^ 8 - 1 := by decide
  simp only [clearBits, Nat.testBit_and, Nat.testBit_xor, hx, Nat.testBit_two_pow_sub_one,
    Nat.one_shiftLeft, Nat.testBit_two_pow, ADATE]
  by_cases h5 : k = 5 <;> by_cases h8 : k < 8 <;> simp [h5, h8, eq_comm]

/-- C13 (as stated, refuted). Called in a state with `samplingActive = false`
(the power-on state after one toggle), `startSampling` leaves
`samplingActive = false`: it does not enable the controller. -/
theorem startSampling_does_not_enable :
    (toggleSampling powerOn).samplingActive = false
      ∧ ¬ (startSampling (toggleSampling powerOn)).samplingActive = true := by
  refine ⟨rfl, ?_⟩
  have h : (startSampling (toggleSampling powerOn)).samplingActive = false := rfl
  rw [h]
  decide

/-- C13 (amended). For every prior state, after `startSampling` the paused
flag is false and the cursor is 0, `samplingActive` is what it was before the
call, and ADCSRA has the bits ADEN, ADATE, ADIE and ADSC set with every other
bit unchanged; buffer, settings and ADMUX are untouched and the line
"Sampling STARTED" is printed. -/
theorem startSampling_postcondition (s : State) :
    startSampling s =
        { s with
          samplingPaused := false
          bufferIndex := 0
          ADCSRA :=
            (s.ADCSRA ||| ((1 <<< ADEN) ||| (1 <<< ADATE) ||| (1 <<< ADIE))) ||| (1 <<< ADSC)
          serialOut := s.serialOut ++ printlnBytes "Sampling STARTED" }
      ∧ (startSampling s).samplingPaused = false
      ∧ (startSampling s).bufferIndex = 0
      ∧ (startSampling s).samplingActive = s.samplingActive
      ∧ ∀ k, (startSampling s).ADCSRA.testBit k
          = (decide (k = ADEN ∨ k = ADATE ∨ k = ADIE ∨ k = ADSC) || s.ADCSRA.testBit k) :=
  ⟨rfl, rfl, rfl, rfl, fun k => start_bits s.ADCSRA k⟩

/-- C14. For every prior state, `stopSampling` sets the paused flag and clears
bit ADATE of ADCSRA, every other bit of the 8-bit register (ADEN among them)
keeping its value; `samplingActive`, the cursor, the buffer, the settings
record and ADMUX are unchanged (the only other effect is the printed line
"Sampling STOPPED"). -/
theorem stopSampling_frame (s : State) :
    stopSampling s =
        { s with
          samplingPaused := true
          ADCSRA := clearBits s.ADCSRA (1 <<< ADATE)
          serialOut := s.serialOut ++ printlnBytes "Sampling STOPPED" }
      ∧ (stopSampling s).samplingPaused = true
      ∧ (∀ k, (stopSampling s).ADCSRA.testBit k
          = (decide (k < 8 ∧ k ≠ ADATE) && s.ADCSRA.testBit k))
      ∧ (stopSampling s).ADCSRA.testBit ADEN = s.ADCSRA.testBit ADEN
      ∧ (stopSampling s).samplingActive = s.samplingActive
      ∧ (stopSampling s).bufferIndex = s.bufferIndex
      ∧ (stopSampling s).analogBuffer = s.analogBuffer
      ∧ (stopSampling s).settings = s.settings
      ∧ (stopSampling s).ADMUX = s.ADMUX := by
  refine ⟨rfl, rfl, fun k => stop_bits s.ADCSRA k, ?_, rfl, rfl, rfl, rfl, rfl⟩
  have h := stop_bits s.ADCSRA ADEN
  have hd : decide (ADEN < 8 ∧ ADEN ≠ ADATE) = true := by decide
  rw [hd, Bool.true_and] at h
  exact h

/-! ## Divider programming -/

/-- C19. For every prior ADCSRA value and every valid index `i` in 0..6, after
`setADCPrescaler i` the register ADCSRA equals
`(prescalers[i] mod 8) | (ADEN|ADATE|ADIE)` whatever it held before, and
`settings.prescalerIndex = i`.  The divider-select bits ADPS2..ADPS0 are 010
for `i = 0`, 100 for `i = 1` and 000 for every `i` in 2..6, so the indices
2..6 all program the same register value 0xA8. -/
theorem setADCPrescaler_register (s : State) (i : Nat) (hi : i < 7) :
    (setADCPrescaler i s).ADCSRA
        = (prescalers.getD i 0 % 8) ||| ((1 <<< ADEN) ||| (1 <<< ADATE) ||| (1 <<< ADIE))
      ∧ (setADCPrescaler i s).settings.prescalerIndex = i
      ∧ (setADCPrescaler i s).ADCSRA % 8 = (if i = 0 then 2 else if i = 1 then 4 else 0)
      ∧ (2 ≤ i → (setADCPrescaler i s).ADCSRA = 0xA8) := by
  interval_cases i <;>
    simp +decide [setADCPrescaler, prescalers, ADEN, ADATE, ADIE, ADPS0, ADPS1, ADPS2]

theorem setADCPrescaler_register_witness :
    5 < 7
      ∧ (setADCPrescaler 5 powerOn).ADCSRA
          = (prescalers.getD 5 0 % 8) ||| ((1 <<< ADEN) ||| (1 <<< ADATE) ||| (1 <<< ADIE))
      ∧ (setADCPrescaler 5 powerOn).settings.prescalerIndex = 5
      ∧ (setADCPrescaler 5 powerOn).ADCSRA % 8 = (if 5 = 0 then 2 else if 5 = 1 then 4 else 0)
      ∧ (2 ≤ 5 → (setADCPrescaler 5 powerOn).ADCSRA = 0xA8) :=
  ⟨by decide, setADCPrescaler_register powerOn 5 (by decide)⟩

/-! ## Voltage reference -/

/-- Bits of ADMUX after `setVoltageReference b`: REFS0 is set, REFS1 is set
when `b` is false, and every bit that was set stays set. -/
theorem setVoltageReference_bits (b : Bool) (s : State) (k : Nat) :
    (setVoltageReference b s).ADMUX.testBit k
      = (decide (k = REFS0) || (!b && decide (k = REFS1)) || s.ADMUX.testBit k) := by
  cases b
  · show (s.ADMUX ||| ((1 <<< REFS0) ||| (1 <<< REFS1))).testBit k = _
    simp only [Nat.testBit_or, Nat.one_shiftLeft, Nat.testBit_two_pow, REFS0, REFS1]
    by_cases h6 : k = 6 <;> by_cases h7 : k = 7 <;> simp [h6, h7, eq_comm]
  · show (s.ADMUX ||| (1 <<< REFS0)).testBit k = _
    simp only [Nat.testBit_or, Nat.one_shiftLeft, Nat.testBit_two_pow, REFS0, REFS1]
    by_cases h6 : k = 6 <;> by_cases h7 : k = 7 <;> simp [h6, h7, eq_comm]

/-- C17 (what the code does). `setVoltageReference b` records
`settings.useVref = b` and never clears a bit of ADMUX, so REFS1 stays set
once it has been set: after `setVoltageReference false`, a following
`setVoltageReference true` leaves both reference bits set, whereas
`setVoltageReference true` alone on a cleared register sets REFS0 only; in the
power-on state both values of `b` give the same ADMUX. -/
theorem setVoltageReference_never_clears (s : State) :
    (∀ b, (setVoltageReference b s).settings.useVref = b)
      ∧ (setVoltageReference true (setVoltageReference false s)).ADMUX.testBit REFS1 = true
      ∧ (setVoltageReference true (setVoltageReference false s)).ADMUX.testBit REFS0 = true
      ∧ (setVoltageReference true resetState).ADMUX.testBit REFS1 = false
      ∧ (setVoltageReference true resetState).ADMUX.testBit REFS0 = true
      ∧ (setVoltageReference true powerOn).ADMUX = (setVoltageReference false powerOn).ADMUX := by
  refine ⟨fun b => rfl, ?_, ?_, by decide, by decide, by decide⟩
  · rw [setVoltageReference_bits, setVoltageReference_bits]
    simp
  · rw [setVoltageReference_bits]
    simp

/-! ## The `'P'` command -/

theorem setADCPrescaler_serialIn (i : Nat) (s : State) (rest : List Nat) :
    setADCPrescaler i { s with serialIn := rest }
      = { setADCPrescaler i s with serialIn := rest } := by
  unfold setADCPrescaler
  split
  · rfl
  · simp only []
    split <;> split <;> split <;> rfl

/-- C16. For every parameter byte `b`, valid index or not, when the receive
queue starts with `'P'`, `b`, `handleSerialCommands` consumes exactly those two
bytes, changes the settings and the registers exactly as `setADCPrescaler b`
does, and writes exactly one 4-byte settings frame (`'S'`, the reported
index, two rate bytes) and nothing else.  (`adcPrescaler` holds 2 in every
state the program produces.) -/
theorem command_P_dispatch (s : State) (b : Nat) (rest : List Nat) (hb : b < 256)
    (hin : s.serialIn = 0x50 :: b :: rest) (hp : s.adcPrescaler = 2) :
    handleSerialCommands s =
      some { setADCPrescaler b s with
             serialIn := rest
             serialOut := s.serialOut ++ [0x53, 2, 153, 80] } := by
  obtain ⟨a, st, hs⟩ := setADCPrescaler_frame b s
  have hb2 : b % 256 = b := Nat.mod_eq_of_lt hb
  simp only [handleSerialCommands, hin, hb2]
  rw [if_pos (by decide), setADCPrescaler_serialIn, sendSettings_eq _ (by rw [hs]; exact hp), hs]

theorem command_P_dispatch_witness :
    (9 : Nat) < 256
      ∧ (hostSends 9 (hostSends 0x50 powerOn)).serialIn = [0x50, 9]
      ∧ (hostSends 9 (hostSends 0x50 powerOn)).adcPrescaler = 2
      ∧ handleSerialCommands (hostSends 9 (hostSends 0x50 powerOn)) =
          some { setADCPrescaler 9 (hostSends 9 (hostSends 0x50 powerOn)) with
                 serialIn := []
                 serialOut :=
                   (hostSends 9 (hostSends 0x50 powerOn)).serialOut ++ [0x53, 2, 153, 80] } :=
  ⟨by decide, rfl, rfl,
    command_P_dispatch (hostSends 9 (hostSends 0x50 powerOn)) 9 [] (by decide) rfl rfl⟩

/-! ## Trigger wait -/

/-- When some coming reading reaches the level, the poll stops right after the
first such reading: the readings before it are all below the level, the ones
after it are left unread. -/
theorem pollTrigger_first (level : Nat) : ∀ readings : List Nat,
    (∃ r ∈ readings, level ≤ r) →
      ∃ pre r post, readings = pre ++ r :: post ∧ (∀ x ∈ pre, x < level) ∧ level ≤ r
        ∧ pollTrigger level readings = some post := by
  intro readings
  induction readings with
  | nil => rintro ⟨r, hr, _⟩; cases hr
  | cons a rest ih =>
    intro hex
    by_cases ha : level ≤ a
    · exact ⟨[], a, rest, rfl, by simp, ha, by simp [pollTrigger, ha]⟩
    · have hex2 : ∃ r ∈ rest, level ≤ r := by
        obtain ⟨r, hr, hle⟩ := hex
        rcases List.mem_cons.mp hr with h | h
        · exact absurd (h ▸ hle) ha
        · exact ⟨r, h, hle⟩
      obtain ⟨pre, r, post, hsplit, hpre, hr, hpoll⟩ := ih hex2
      refine ⟨a :: pre, r, post, by rw [hsplit]; rfl, ?_, hr, by simp [pollTrigger, ha, hpoll]⟩
      intro x hx
      rcases List.mem_cons.mp hx with h | h
      · rw [h]; omega
      · exact hpre x h

/-- C18. With the latch modelled as the sequence of its coming readings:
when `triggerMode` is false, `waitForTrigger` returns at once, no reading
consumed; when `triggerMode` is true and some coming reading is at least
`triggerLevel`, it terminates having consumed the readings up to and including
the first such one and none after it.  In both cases the flags, the cursor,
the buffer, the settings, the registers and the transport are unchanged. -/
theorem waitForTrigger_terminates (s : State) :
    (s.settings.triggerMode = false → waitForTrigger s = some s)
      ∧ (s.settings.triggerMode = true →
          (∃ r ∈ s.adchReadings, s.settings.triggerLevel ≤ r) →
            ∃ pre r post, s.adchReadings = pre ++ r :: post
              ∧ (∀ x ∈ pre, x < s.settings.triggerLevel) ∧ s.settings.triggerLevel ≤ r
              ∧ waitForTrigger s = some { s with adchReadings := post }) := by
  constructor
  · intro h
    simp [waitForTrigger, h]
  · intro h hex
    obtain ⟨pre, r, post, hsplit, hpre, hr, hpoll⟩ :=
      pollTrigger_first s.settings.triggerLevel s.adchReadings hex
    exact ⟨pre, r, post, hsplit, hpre, hr, by simp [waitForTrigger, h, hpoll]⟩

theorem waitForTrigger_terminates_witness :
    waitForTrigger { powerOn with adchReadings := [3, 200, 5] }
        = some { powerOn with adchReadings := [3, 200, 5] }
      ∧ ∃ pre r post,
          (setTriggerMode true 128 { powerOn with adchReadings := [3, 200, 5] }).adchReadings
              = pre ++ r :: post
            ∧ (∀ x ∈ pre,
                x < (setTriggerMode true 128
                      { powerOn with adchReadings := [3, 200, 5] }).settings.triggerLevel)
            ∧ (setTriggerMode true 128
                  { powerOn with adchReadings := [3, 200, 5] }).settings.triggerLevel ≤ r
            ∧ waitForTrigger (setTriggerMode true 128 { powerOn with adchReadings := [3, 200, 5] })
                = some { setTriggerMode true 128 { powerOn with adchReadings := [3, 200, 5] } with
                         adchReadings := post } :=
  ⟨(waitForTrigger_terminates { powerOn with adchReadings := [3, 200, 5] }).1 rfl,
    (waitForTrigger_terminates
        (setTriggerMode true 128 { powerOn with adchReadings := [3, 200, 5] })).2 rfl
      ⟨200, by decide, by decide⟩⟩

/-! ## Status frames -/

/-- C20. In every state reachable from the power-on state by host bytes,
handler invocations and loop iterations, `samplingPaused` is the negation of
`samplingActive`; hence a status frame sent from such a state is `'X', 1, 0`
or `'X', 0, 1`.  The program sends status frames only at the end of
`toggleSampling`, and that frame is `'X', 1, 0` or `'X', 0, 1` from any
state. -/
theorem reachable_status_frames (s : State) (h : Reachable s) :
    s.samplingPaused = (!s.samplingActive)
      ∧ (statusFrame s = [0x58, 1, 0] ∨ statusFrame s = [0x58, 0, 1])
      ∧ (sendSamplingStatus s).serialOut = s.serialOut ++ statusFrame s
      ∧ ∀ u : State,
          (toggleSampling u).serialOut
              = u.serialOut ++ samplingBanner (toggleSampling u).samplingActive
                  ++ statusFrame (toggleSampling u)
            ∧ (statusFrame (toggleSampling u) = [0x58, 1, 0]
                ∨ statusFrame (toggleSampling u) = [0x58, 0, 1]) := by
  have hf := reachable_flags s h
  refine ⟨hf, ?_, ?_, ?_⟩
  · cases ha : s.samplingActive
    · right; simp [statusFrame, hf, ha, boolByte]
    · left; simp [statusFrame, hf, ha, boolByte]
  · simp [sendSamplingStatus, Serial_write, statusFrame]
  · intro u
    cases ha : u.samplingActive
    · rw [toggleSampling_of_inactive u ha]; exact ⟨rfl, Or.inl rfl⟩
    · rw [toggleSampling_of_active u ha]; exact ⟨rfl, Or.inr rfl⟩

theorem reachable_status_frames_witness :
    Reachable (hostSends 0x52 powerOn)
      ∧ (hostSends 0x52 powerOn).samplingPaused = (!(hostSends 0x52 powerOn).samplingActive)
      ∧ (statusFrame (hostSends 0x52 powerOn) = [0x58, 1, 0]
          ∨ statusFrame (hostSends 0x52 powerOn) = [0x58, 0, 1])
      ∧ (sendSamplingStatus (hostSends 0x52 powerOn)).serialOut
          = (hostSends 0x52 powerOn).serialOut ++ statusFrame (hostSends 0x52 powerOn)
      ∧ ∀ u : State,
          (toggleSampling u).serialOut
              = u.serialOut ++ samplingBanner (toggleSampling u).samplingActive
                  ++ statusFrame (toggleSampling u)
            ∧ (statusFrame (toggleSampling u) = [0x58, 1, 0]
                ∨ statusFrame (toggleSampling u) = [0x58, 0, 1]) :=
  ⟨Reachable.recv 0x52 Reachable.start,
    reachable_status_frames _ (Reachable.recv 0x52 Reachable.start)⟩

end AdcTest
